import Mathlib

/-!
Verification of the 3D quasi-geostrophic Dedalus driver (src/simulation.py).

The script is a straight-line declarative program: it builds an IVP and a
companion elliptic LBVP over a Fourier x Fourier x Chebyshev domain, solves
the LBVP once for a balanced vertical velocity, copies the result into the
IVP state, and then runs an adaptive-step time loop.  We embed, directly
from the source, the pieces the claims are about:

* the boundary-condition rows with their wavenumber-pair selector
  predicates (lines 101-104 and 146-148),
* the stratification parameter Gamma (line 63),
* the noise-seeded initial pressure construction (lines 124-129),
* the setup trace with per-field working scales (lines 119-161, 197),
* the running time loop body (lines 197-204).

Components of the numerical core whose implementation is not part of the
source tree (the CFL controller, the SBDF2 multistep integrator and the
per-mode linear solve live in the external Dedalus/flow_tools layer) are
modelled from the specification, and each such definition says so in its
doc comment.
-/

set_option autoImplicit false

namespace QGF

/-! ### Domain constants, from the source -/

/-- Source line 34: height of the bounded vertical axis. -/
def Hdom : ℝ := 1

/-- Source line 35: horizontal resolution in x. -/
def Nx : ℕ := 64

/-- Source line 35: horizontal resolution in y. -/
def Ny : ℕ := 32

/-- Source lines 42-44: every axis carries dealias = 3/2. -/
def dealiasScale : ℚ := 3/2

/-! ### The stratification parameter Gamma (claim C8) -/

/-- Source line 63: the grid values assigned to Gamma are exp(2*(z-1)). -/
noncomputable def Gamma_g (z : ℝ) : ℝ := Real.exp (2*(z-1))

/-! ### Boundary-condition rows and their selector predicates (claim C3) -/

/-- Endpoint of the bounded axis a boundary row is attached to. -/
inductive BCSide
  | leftEnd
  | rightEnd
  deriving DecidableEq

/-- The boundary equations appearing in the source, as tags.  The IVP uses
the first three (lines 101-104); the balance problem uses the last three
(lines 146-148). -/
inductive BCExpr
  | leftW_minus_rZeta_eq0
  | rightW_eq0
  | rightP_eq0
  | leftW_eq_left_rZeta
  | rightPt_eq0
  deriving DecidableEq

/-- A boundary condition: a side, an equation tag, and the selector
predicate over the horizontal wavenumber pair. -/
structure BC where
  side : BCSide
  eqn : BCExpr
  applies : ℤ → ℤ → Bool

/-- Selector of a boundary row with no condition string: applies to every
wavenumber pair. -/
def bcAlways : ℤ → ℤ → Bool := fun _ _ => true

/-- Source condition string on lines 103 and 147: (nx != 0) or (ny != 0). -/
def bcNonzeroPair : ℤ → ℤ → Bool := fun nx ny => (!(nx == 0)) || (!(ny == 0))

/-- Source condition string on lines 104 and 148: (nx == 0) and (ny == 0). -/
def bcZeroPair : ℤ → ℤ → Bool := fun nx ny => (nx == 0) && (ny == 0)

/-- Source lines 101-104: the boundary rows of the IVP. -/
def ivp_bcs : List BC :=
  [⟨.leftEnd, .leftW_minus_rZeta_eq0, bcAlways⟩,
   ⟨.rightEnd, .rightW_eq0, bcNonzeroPair⟩,
   ⟨.rightEnd, .rightP_eq0, bcZeroPair⟩]

/-- Source lines 146-148: the boundary rows of the balance problem. -/
def init_bcs : List BC :=
  [⟨.leftEnd, .leftW_eq_left_rZeta, bcAlways⟩,
   ⟨.rightEnd, .rightW_eq0, bcNonzeroPair⟩,
   ⟨.rightEnd, .rightPt_eq0, bcZeroPair⟩]

/-- The equation tags of the boundary rows whose selector accepts the
wavenumber pair (nx, ny), in source order. -/
def selectedRows (bcs : List BC) (nx ny : ℤ) : List BCExpr :=
  (bcs.filter (fun bc => bc.applies nx ny)).map (fun bc => bc.eqn)

/-! ### The noise-seeded initial pressure (claim C10) -/

/-- Source line 124: the RandomState seed is the literal 42. -/
def seed : ℕ := 42

/-- Dealiased global horizontal x-resolution: 64 * 3/2. -/
def NxD : ℕ := 96

/-- Dealiased global horizontal y-resolution: 32 * 3/2. -/
def NyD : ℕ := 48

/-- Index of the (i, j) sample of the first standard-normal draw
(source line 127). -/
def noise1Index (i j : ℕ) : ℕ := i * NyD + j

/-- Index of the (i, j) sample of the second standard-normal draw, taken
after the first consumed a full global horizontal array
(source line 128). -/
def noise2Index (i j : ℕ) : ℕ := NxD * NyD + i * NyD + j

/-- Modelled from the spec: the random number generator is an external
collaborator (numpy RandomState) that yields a deterministic stream of
samples determined entirely by the seed; we model it as a pure function
from seed and draw index to a value.  The cosine factor cos(kz*z) of
source line 129 is likewise a fixed function of the vertical grid index.
The function takes an externally supplied input that the source never
reads: the source hard-codes seed = 42 and has no input channel, so the
grid value at (i, j, k) is
30 * (noise1(i,j) * cos(kz*z_k) + noise2(i,j)) regardless of it. -/
def initialPressureGrid (prng : ℕ → ℕ → ℚ) (cosKz : ℕ → ℚ)
    (externalInput : ℕ) (i j k : ℕ) : ℚ :=
  30 * (prng seed (noise1Index i j) * cosKz k + prng seed (noise2Index i j))

/-! ### The CFL step-size controller (claims C2 and C9) -/

/-- Source line 110: the initial step size. -/
def dt_init : ℚ := 1/100

/-- Configuration of the CFL controller, as in the data model: safety
factor, recompute cadence, per-update change-ratio bounds, maximum step
size, and change-significance threshold. -/
structure CFLConfig where
  safety : ℚ
  cadence : ℕ
  max_change : ℚ
  min_change : ℚ
  max_dt : ℚ
  threshold : ℚ

/-- Source lines 190-191: the controller configuration used by the run;
note max_dt is set to dt_init. -/
def qgfCFL : CFLConfig :=
  { safety := 1/4, cadence := 10, max_change := 3/2, min_change := 1/2,
    max_dt := dt_init, threshold := 1/20 }

/-- Clamp x into the closed interval from lo to hi. -/
def clampQ (lo hi x : ℚ) : ℚ := max lo (min hi x)

/-- Modelled from the spec: the candidate step size a cadence call
computes before the hysteresis test.  The input freqs holds, for each
registered velocity/axis pair, the globally reduced maximum absolute
grid value of that velocity divided by the grid spacing; the raw
candidate is safety over their sum, its ratio to the previous value is
clamped into the change-ratio interval, and the result is clamped to
max_dt. -/
def cflCandidate (cfg : CFLConfig) (prev : ℚ) (freqs : List ℚ) : ℚ :=
  min (prev * clampQ cfg.min_change cfg.max_change ((cfg.safety / freqs.sum) / prev))
    cfg.max_dt

/-- Modelled from the spec: a cadence call of the controller.  If every
registered frequency is zero the step size is left at its current value;
otherwise the clamped candidate is adopted unless its relative change
from the previous value is below the threshold, in which case the
previous value is kept (hysteresis). -/
def cadenceUpdate (cfg : CFLConfig) (prev : ℚ) (freqs : List ℚ) : ℚ :=
  if freqs.sum = 0 then prev
  else if |cflCandidate cfg prev freqs - prev| / prev < cfg.threshold then prev
  else cflCandidate cfg prev freqs

/-- Modelled from the spec: compute_dt returns the previously computed
value unchanged on off-cadence calls, and performs the cadence update
otherwise. -/
def compute_dt (cfg : CFLConfig) (prev : ℚ) (onCadence : Bool) (freqs : List ℚ) : ℚ :=
  if onCadence then cadenceUpdate cfg prev freqs else prev

/-- The sequence of step sizes returned by the controller over a run:
iteration i is a cadence call exactly when i is a multiple of the
configured cadence, and the retained previous value threads through. -/
def cflTrajAux (cfg : CFLConfig) : ℕ → ℚ → List (List ℚ) → List ℚ
  | _, _, [] => []
  | i, prev, f :: fs =>
      let d := compute_dt cfg prev (i % cfg.cadence == 0) f
      d :: cflTrajAux cfg (i+1) d fs

/-- The controller trajectory of the run, started from dt_init as in
source line 190. -/
def cflTraj (inputs : List (List ℚ)) : List ℚ := cflTrajAux qgfCFL 0 dt_init inputs

/-- Relation between consecutive returned step sizes: the new value is
positive, bounded by max_dt, and within the change-ratio interval of the
previous value (for positive a this says b/a lies in
[min_change, max_change]). -/
def cflOK (a b : ℚ) : Prop :=
  0 < b ∧ b ≤ qgfCFL.max_dt ∧ qgfCFL.min_change * a ≤ b ∧ b ≤ qgfCFL.max_change * a

lemma le_clampQ (lo hi x : ℚ) : lo ≤ clampQ lo hi x := le_max_left _ _

lemma clampQ_le (lo hi x : ℚ) (h : lo ≤ hi) : clampQ lo hi x ≤ hi :=
  max_le h (min_le_left _ _)

lemma cflCandidate_bounds (prev : ℚ) (freqs : List ℚ)
    (h0 : 0 < prev) (h1 : prev ≤ dt_init) :
    0 < cflCandidate qgfCFL prev freqs ∧
    cflCandidate qgfCFL prev freqs ≤ dt_init ∧
    (1/2) * prev ≤ cflCandidate qgfCFL prev freqs ∧
    cflCandidate qgfCFL prev freqs ≤ (3/2) * prev := by
  have hlo := le_clampQ (qgfCFL.min_change) (qgfCFL.max_change)
    ((qgfCFL.safety / freqs.sum) / prev)
  have hhi := clampQ_le (qgfCFL.min_change) (qgfCFL.max_change)
    ((qgfCFL.safety / freqs.sum) / prev) (by norm_num [qgfCFL])
  set c := clampQ (qgfCFL.min_change) (qgfCFL.max_change)
    ((qgfCFL.safety / freqs.sum) / prev) with hc
  have hminc : (1/2 : ℚ) ≤ c := by simpa [qgfCFL] using hlo
  have hmaxc : c ≤ (3/2 : ℚ) := by simpa [qgfCFL] using hhi
  have hdtm : qgfCFL.max_dt = dt_init := rfl
  have hclo : (1/2) * prev ≤ prev * c := by nlinarith
  have hchi : prev * c ≤ (3/2) * prev := by nlinarith
  refine ⟨?_, ?_, ?_, ?_⟩
  · simp only [cflCandidate, ← hc, hdtm]
    exact lt_min (by nlinarith) (by norm_num [dt_init])
  · simp only [cflCandidate, ← hc, hdtm]
    exact min_le_right _ _
  · simp only [cflCandidate, ← hc, hdtm]
    refine le_min hclo ?_
    have h2 : (1/2) * prev ≤ prev := by nlinarith
    calc (1/2) * prev ≤ prev := h2
      _ ≤ dt_init := h1
  · simp only [cflCandidate, ← hc, hdtm]
    exact le_trans (min_le_left _ _) hchi

lemma compute_dt_ok (prev : ℚ) (b : Bool) (freqs : List ℚ)
    (h0 : 0 < prev) (h1 : prev ≤ dt_init) :
    cflOK prev (compute_dt qgfCFL prev b freqs) := by
  have hself : cflOK prev prev := by
    refine ⟨h0, by simpa [qgfCFL] using h1, ?_, ?_⟩ <;>
      · simp only [qgfCFL]; nlinarith
  cases b with
  | false => simpa [compute_dt] using hself
  | true =>
      simp only [compute_dt, cadenceUpdate, if_true]
      split
      · exact hself
      · split
        · exact hself
        · obtain ⟨hp, hd, hlo2, hhi2⟩ := cflCandidate_bounds prev freqs h0 h1
          exact ⟨hp, by simpa [qgfCFL] using hd, by simpa [qgfCFL] using hlo2,
            by simpa [qgfCFL] using hhi2⟩

lemma cflTrajAux_chain (fs : List (List ℚ)) :
    ∀ (i : ℕ) (prev : ℚ), 0 < prev → prev ≤ dt_init →
      List.Chain cflOK prev (cflTrajAux qgfCFL i prev fs) := by
  induction fs with
  | nil => intro i prev _ _; exact List.Chain.nil
  | cons f fs ih =>
      intro i prev h0 h1
      have hok := compute_dt_ok prev (i % qgfCFL.cadence == 0) f h0 h1
      refine List.Chain.cons hok ?_
      exact ih (i+1) _ hok.1 (by simpa [qgfCFL] using hok.2.1)

/-- Claim C2: with the configuration of the run (safety 1/4, cadence 10,
max_change 3/2, min_change 1/2, max_dt 1/100, threshold 1/20, started
from dt_init = 1/100), for every sequence of velocity-frequency inputs
every returned step size is positive, at most max_dt, and within the
change-ratio interval of the previously returned value; off-cadence
calls return the previous value unchanged; and on a cadence call whose
clamped candidate differs from the previous value by a relative change
below the threshold, the previous value is returned unchanged. -/
theorem cfl_bounds :
    (∀ inputs : List (List ℚ), List.Chain cflOK dt_init (cflTraj inputs)) ∧
    (∀ (prev : ℚ) (freqs : List ℚ), compute_dt qgfCFL prev false freqs = prev) ∧
    (∀ (prev : ℚ) (freqs : List ℚ), freqs.sum ≠ 0 →
      |cflCandidate qgfCFL prev freqs - prev| / prev < qgfCFL.threshold →
      cadenceUpdate qgfCFL prev freqs = prev) := by
  refine ⟨?_, ?_, ?_⟩
  · intro inputs
    exact cflTrajAux_chain inputs 0 dt_init (by norm_num [dt_init]) le_rfl
  · intro prev freqs; simp [compute_dt]
  · intro prev freqs hsum hthr
    simp [cadenceUpdate, hsum, hthr]

/-- Witness for cfl_bounds at concrete inputs: a two-iteration trajectory,
and a hysteresis instance where the candidate (1/104, from frequency sum
26) is within 5 percent of the previous value 1/100 and so the previous
value is kept. -/
theorem cfl_bounds_witness :
    List.Chain cflOK dt_init (cflTraj [[100], [7]]) ∧
    cadenceUpdate qgfCFL (1/100) [26] = 1/100 := by
  have hc : cflCandidate qgfCFL ((1:ℚ)/100) [26] = 1/104 := by
    norm_num [cflCandidate, clampQ, qgfCFL, dt_init, min_def, max_def]
  refine ⟨cfl_bounds.1 [[100], [7]], ?_⟩
  refine cfl_bounds.2.2 (1/100) [26] (by norm_num) ?_
  rw [hc, abs_of_neg (by norm_num : (1:ℚ)/104 - 1/100 < 0)]
  norm_num [qgfCFL]

lemma cflTrajAux_le (fs : List (List ℚ)) :
    ∀ (i : ℕ) (prev : ℚ), 0 < prev → prev ≤ dt_init →
      ∀ d ∈ cflTrajAux qgfCFL i prev fs, d ≤ dt_init := by
  induction fs with
  | nil => intro i prev _ _ d hd; simp [cflTrajAux] at hd
  | cons f fs ih =>
      intro i prev h0 h1 d hd
      have hok := compute_dt_ok prev (i % qgfCFL.cadence == 0) f h0 h1
      have hle : compute_dt qgfCFL prev (i % qgfCFL.cadence == 0) f ≤ dt_init := by
        simpa [qgfCFL] using hok.2.1
      simp only [cflTrajAux, List.mem_cons] at hd
      rcases hd with h | h
      · exact h ▸ hle
      · exact ih (i+1) _ hok.1 hle d h

/-- Claim C9: max_dt is set to the initial step size dt_init, and every
step size the controller ever returns (hence every dt passed to
solver.step) is at most dt_init = 1/100. -/
theorem dt_le_dt_init :
    qgfCFL.max_dt = dt_init ∧
    ∀ (inputs : List (List ℚ)), ∀ d ∈ cflTraj inputs, d ≤ dt_init := by
  refine ⟨rfl, ?_⟩
  intro inputs d hd
  exact cflTrajAux_le inputs 0 dt_init (by norm_num [dt_init]) le_rfl d hd

/-- Witness for dt_le_dt_init: with frequency sum 100 at the first
(cadence) call, the returned step size is 1/200, which the theorem bounds
by dt_init. -/
theorem dt_le_dt_init_witness : (1/200 : ℚ) ≤ dt_init := by
  have hc : cflCandidate qgfCFL dt_init [100] = 1/200 := by
    norm_num [cflCandidate, clampQ, qgfCFL, dt_init, min_def, max_def]
  have habs : ¬ |cflCandidate qgfCFL dt_init [100] - dt_init| / dt_init
      < qgfCFL.threshold := by
    rw [hc, abs_of_neg (by norm_num [dt_init] : (1:ℚ)/200 - dt_init < 0)]
    norm_num [qgfCFL, dt_init]
  have hstep : compute_dt qgfCFL dt_init (0 % qgfCFL.cadence == 0) [100] = 1/200 := by
    rw [show (0 % qgfCFL.cadence == 0) = true from by norm_num [qgfCFL]]
    simp only [compute_dt, if_true, cadenceUpdate]
    rw [if_neg (by norm_num), if_neg habs, hc]
  have ht : cflTraj [[100]] = [1/200] := by
    simp only [cflTraj, cflTrajAux, hstep]
  exact dt_le_dt_init.2 [[100]] (1/200) (by rw [ht]; exact List.mem_singleton.mpr rfl)

/-- Claim C3: for every horizontal wavenumber pair, the selector
predicates of both problems resolve to exactly two boundary rows: the
unconditional bottom row, plus exactly one top row, which for the zero
pair is right(P)=0 (IVP) or right(Pt)=0 (balance problem) and for every
other pair is right(W)=0; the zero-pair row differs from the generic
one, so no pair has a missing or duplicated boundary row. -/
theorem bc_rows_exact (nx ny : ℤ) :
    (selectedRows ivp_bcs nx ny).length = 2 ∧
    (selectedRows init_bcs nx ny).length = 2 ∧
    selectedRows ivp_bcs nx ny =
      [.leftW_minus_rZeta_eq0, if nx = 0 ∧ ny = 0 then .rightP_eq0 else .rightW_eq0] ∧
    selectedRows init_bcs nx ny =
      [.leftW_eq_left_rZeta, if nx = 0 ∧ ny = 0 then .rightPt_eq0 else .rightW_eq0] ∧
    BCExpr.rightP_eq0 ≠ BCExpr.rightW_eq0 ∧
    BCExpr.rightPt_eq0 ≠ BCExpr.rightW_eq0 := by
  by_cases hx : nx = 0 <;> by_cases hy : ny = 0 <;>
    simp [selectedRows, ivp_bcs, init_bcs, bcAlways, bcNonzeroPair, bcZeroPair,
      hx, hy]

/-- Claim C8: at every vertical coordinate z between 0 and the domain
height, the grid value assigned to the stratification parameter Gamma,
namely exp(2*(z-1)), is strictly positive. -/
theorem gamma_positive (z : ℝ) (h0 : 0 ≤ z) (h1 : z ≤ Hdom) : 0 < Gamma_g z :=
  Real.exp_pos _

/-- Witness for gamma_positive at the bottom boundary point z = 0. -/
theorem gamma_positive_witness : (0:ℝ) ≤ 0 ∧ (0:ℝ) ≤ Hdom ∧ 0 < Gamma_g 0 :=
  ⟨le_refl 0, by norm_num [Hdom], gamma_positive 0 (le_refl 0) (by norm_num [Hdom])⟩

/-- Claim C10: the seed the source passes to the generator is the
constant 42, and the initial pressure grid is the same function of the
generator and the domain configuration on any two runs: it does not
depend on the externally supplied input, because the source reads no
external seed. -/
theorem init_deterministic :
    seed = 42 ∧
    ∀ (prng : ℕ → ℕ → ℚ) (cosKz : ℕ → ℚ) (e1 e2 i j k : ℕ),
      initialPressureGrid prng cosKz e1 i j k = initialPressureGrid prng cosKz e2 i j k :=
  ⟨rfl, fun _ _ _ _ _ _ _ => rfl⟩

/-! ### The setup trace with per-field working scales (claims C5 and C6) -/

/-- The fields whose working scales the setup manipulates: the three
initial-condition fields, the two IVP state fields, and the vertical
velocity unknown of the balance solver state. -/
inductive FieldId
  | Pinit
  | Binit
  | Qinit
  | Pf
  | Wf
  | initW
  deriving DecidableEq

/-- The working scales occurring in the source: the default scale 1, the
dealias scale 3/2, and the filter scale 1/16 of line 130. -/
inductive Scale
  | one
  | dealias
  | sixteenth
  deriving DecidableEq

/-- The resampling factor a scale stands for. -/
def scaleVal : Scale → ℚ
  | .one => 1
  | .dealias => 3/2
  | .sixteenth => 1/16

/-- One statement of the straight-line setup, as it appears in the
source between the initial-condition block and the time loop. -/
inductive SetupStep
  | setScale (f : FieldId) (sc : Scale)
  | noiseAssign (f : FieldId)
  | requireGrid (f : FieldId)
  | lbvpBuild
  | lbvpSolveStep
  | copyGrid (dst src : FieldId)
  | analysisSetup
  | cflSetup
  | loopStart
  deriving DecidableEq

/-- Source lines 119-197, in order: scale the initial-condition fields
to the dealias scale, fill P_init with filtered noise, drop P_init to
scale 1/16, build and solve the balance LBVP once, scale the IVP state
fields to the dealias scale, copy P_init into P, scale the solved
balance W to the dealias scale, copy it into the IVP W, register the
analysis tasks and the CFL controller, and enter the time loop. -/
def setupProgram : List SetupStep :=
  [.setScale .Pinit .dealias, .setScale .Binit .dealias,
   .setScale .Qinit .dealias,
   .noiseAssign .Pinit,
   .setScale .Pinit .sixteenth, .requireGrid .Pinit,
   .lbvpBuild, .lbvpSolveStep,
   .setScale .Pf .dealias, .setScale .Wf .dealias,
   .copyGrid .Pf .Pinit,
   .setScale .initW .dealias,
   .copyGrid .Wf .initW,
   .analysisSetup, .cflSetup,
   .loopStart]

/-- The grid-data copies a setup program performs, each recorded with
the destination and source fields and their working scales at the
moment of the copy.  Every field starts at scale 1. -/
def copiesAux : (FieldId → Scale) → List SetupStep → List (FieldId × FieldId × Scale × Scale)
  | _, [] => []
  | sc, (SetupStep.setScale g s) :: rest =>
      copiesAux (fun f => if f = g then s else sc f) rest
  | sc, (SetupStep.copyGrid d s) :: rest => (d, s, sc d, sc s) :: copiesAux sc rest
  | sc, _ :: rest => copiesAux sc rest

/-- The copies of the setup trace, with scales at the copy. -/
def setupCopies : List (FieldId × FieldId × Scale × Scale) :=
  copiesAux (fun _ => .one) setupProgram

/-- Claim C5: the balance LBVP solve happens exactly once, strictly
before both state assignments and the start of the time loop; the
program performs exactly two grid-data copies, both before the loop:
P receives the prescribed initial pressure field P_init (so P is not set
from the balance solve), and W receives the solved balance field after
it has been resampled to the dealias scale, at which W also sits. -/
theorem balance_solve_once_before_loop :
    setupProgram.count .lbvpSolveStep = 1 ∧
    setupProgram.indexOf .lbvpSolveStep < setupProgram.indexOf (.copyGrid .Pf .Pinit) ∧
    setupProgram.indexOf .lbvpSolveStep < setupProgram.indexOf (.copyGrid .Wf .initW) ∧
    setupProgram.indexOf (.copyGrid .Pf .Pinit) < setupProgram.indexOf .loopStart ∧
    setupProgram.indexOf (.copyGrid .Wf .initW) < setupProgram.indexOf .loopStart ∧
    setupCopies = [(.Pf, .Pinit, .dealias, .sixteenth),
                   (.Wf, .initW, .dealias, .dealias)] ∧
    scaleVal .dealias = dealiasScale ∧
    FieldId.Pinit ≠ FieldId.initW := by
  refine ⟨by decide, by decide, by decide, by decide, by decide, by decide, ?_,
    by decide⟩
  norm_num [scaleVal, dealiasScale]

/-- Claim C6 evaluation at the failing input: the setup performs the
copy of P_init into P while P_init sits at scale 1/16 and P sits at the
dealias scale 3/2, so the program does copy grid data between fields
whose working scales differ at the moment of the copy. -/
theorem scale_mismatch_copy :
    (FieldId.Pf, FieldId.Pinit, Scale.dealias, Scale.sixteenth) ∈ setupCopies ∧
    Scale.dealias ≠ Scale.sixteenth ∧
    scaleVal .dealias ≠ scaleVal .sixteenth := by
  refine ⟨by decide, by decide, ?_⟩
  norm_num [scaleVal]

/-! ### The running time loop body (claim C1) -/

/-- A grid value of an evolved field, which may be non-finite. -/
inductive FVal
  | val (q : ℚ)
  | nan
  | pinf
  | ninf

/-- Finiteness of a grid value. -/
def FVal.isFinite : FVal → Bool
  | .val _ => true
  | _ => false

/-- The grid data of the evolved fields P and W. -/
structure SimFields where
  Pg : List FVal
  Wg : List FVal

/-- The running solver state the loop body reads: iteration counter,
simulation time, and the evolved fields. -/
structure SolverState where
  iteration : ℕ
  sim_time : ℚ
  fields : SimFields

/-- The observable actions one pass of the loop body can take. -/
inductive LoopEvent
  | requireGridSpaceAll
  | stepped (dt : ℚ)
  | logIterTimeDt (it : ℕ) (t : ℚ) (dt : ℚ)
  | logMaxW
  | abortNumericalDivergence (it : ℕ) (t : ℚ)

/-- Whether an event is a divergence abort. -/
def LoopEvent.isAbort : LoopEvent → Bool
  | .abortNumericalDivergence _ _ => true
  | _ => false

/-- Source lines 197-204, one pass of the while loop over a pre-step
state s with step size dt from the controller: if (iteration-1) mod 1000
is 0 (Python semantics on the negative value at iteration 0, hence
integer emod) every state field is forced to grid space; the solver
steps, advancing iteration by one and time by dt; then if the post-step
(iteration-1) mod 100 is 0 the iteration, time, step size and the
maximum of W are logged.  No other action is taken. -/
def loopBodyEvents (s : SolverState) (dt : ℚ) : List LoopEvent :=
  (if ((s.iteration : ℤ) - 1) % 1000 == 0 then [.requireGridSpaceAll] else []) ++
  [.stepped dt] ++
  (if ((s.iteration + 1 : ℤ) - 1) % 100 == 0 then
    [.logIterTimeDt (s.iteration + 1) (s.sim_time + dt) dt, .logMaxW]
   else [])

/-- A state at pre-step iteration 0 (so the post-step iteration 1 is a
logging iteration) whose W grid holds a NaN. -/
def nanState : SolverState :=
  { iteration := 0, sim_time := 0, fields := { Pg := [.val 0], Wg := [.nan] } }

/-- Claim C1 refutation: no pass of the time loop body ever emits a
divergence abort, whatever the state holds; in particular at the failing
input, where W contains a non-finite value and the post-step iteration 1
is a logging iteration, the body just steps and logs. -/
theorem divergence_check_absent :
    (∀ (s : SolverState) (dt : ℚ),
      (loopBodyEvents s dt).all (fun e => !e.isAbort) = true) ∧
    nanState.fields.Wg.all FVal.isFinite = false ∧
    loopBodyEvents nanState (1/100) =
      [.stepped (1/100), .logIterTimeDt 1 (0 + 1/100) (1/100), .logMaxW] := by
  refine ⟨?_, ?_, ?_⟩
  · intro s dt
    simp only [loopBodyEvents]
    split <;> split <;>
      simp [LoopEvent.isAbort, List.all_append, List.all_cons, List.all_nil]
  · rfl
  · simp only [loopBodyEvents, nanState]
    norm_num

/-! ### The implicit-explicit multistep integrator (claim C4) -/

/-- Modelled from the spec: the history length of the targeted
second-order scheme (SBDF2, chosen on source line 107) is 2 recorded
explicit-term evaluations. -/
def history_length : ℕ := 2

/-- The two blends of explicit-term history the scheme can apply. -/
inductive BlendKind
  | firstOrderOneTerm
  | secondOrderTwoTerm
  deriving DecidableEq

/-- Modelled from the spec: the fixed blending coefficients of the
scheme, a one-term first-order blend during warmup and a two-term
second-order blend in steady state. -/
def blendCoeffs : BlendKind → List ℚ
  | .firstOrderOneTerm => [1]
  | .secondOrderTwoTerm => [2, -1]

/-- The integrator state the transition depends on: how many
explicit-term evaluations have been recorded. -/
structure MSState where
  recorded : ℕ
  deriving DecidableEq

/-- The fresh integrator state: no evaluations recorded yet. -/
def ms0 : MSState := ⟨0⟩

/-- Modelled from the spec: one step of the integrator.  The step
evaluates the explicit right-hand side, making recorded + 1 evaluations
available; it blends with the one-term first-order coefficients while
fewer than history_length evaluations are available and with the
two-term second-order coefficients otherwise, and then pushes the new
evaluation into the history, dropping the oldest beyond capacity. -/
def msStep (s : MSState) : BlendKind × MSState :=
  (if s.recorded + 1 < history_length then .firstOrderOneTerm else .secondOrderTwoTerm,
   ⟨min (s.recorded + 1) history_length⟩)

/-- The blends applied over the first n steps from a given state. -/
def blendSeqAux : MSState → ℕ → List BlendKind
  | _, 0 => []
  | s, n+1 => (msStep s).1 :: blendSeqAux (msStep s).2 n

/-- The blends applied over the first n steps of a run. -/
def blendSeq (n : ℕ) : List BlendKind := blendSeqAux ms0 n

lemma blendSeqAux_steady (n : ℕ) :
    ∀ (s : MSState), 1 ≤ s.recorded →
      blendSeqAux s n = List.replicate n .secondOrderTwoTerm := by
  induction n with
  | zero => intro s _; rfl
  | succ n ih =>
      intro s hs
      have h2 : ¬ s.recorded + 1 < history_length := by
        simp only [history_length]; omega
      simp only [blendSeqAux, msStep, if_neg h2, List.replicate_succ]
      refine congrArg _ (ih _ ?_)
      simp only [history_length]
      omega

/-- Claim C4: the second-order multistep integrator applies the
first-order one-term blend for exactly the first
history_length - 1 = 1 step and the second-order two-term blend at
every step thereafter; the transition happens once 2 explicit-term
evaluations have been recorded and no later step ever uses the warmup
blend again. -/
theorem sbdf2_warmup_transition :
    history_length - 1 = 1 ∧
    (∀ n : ℕ, blendSeq (n+1) =
      .firstOrderOneTerm :: List.replicate n .secondOrderTwoTerm) ∧
    (blendCoeffs .firstOrderOneTerm).length = 1 ∧
    (blendCoeffs .secondOrderTwoTerm).length = 2 := by
  refine ⟨rfl, ?_, rfl, rfl⟩
  intro n
  have h1 : (0:ℕ) + 1 < history_length := by simp [history_length]
  simp only [blendSeq, blendSeqAux, ms0, msStep, if_pos h1]
  exact congrArg _ (blendSeqAux_steady n _ (by simp [history_length]))

/-! ### The balance LBVP with zero data (claim C7) -/

/-- The named parameters bound into the problems (source lines 85-91 and
140-141): the prescribed pressure field P, the unused noise field Q, the
background thermal wind U, the stratification Gamma, and the scalar
coefficients beta, r, nu, kappa and the height H. -/
inductive PVar
  | Pp
  | Qp
  | Up
  | GammaP
  | betaP
  | rP
  | nuP
  | kappaP
  | Hp
  deriving DecidableEq

/-- The operator tree of the right-hand sides: parameter references,
spectral derivatives along the three axes, interpolation at the left
endpoint of the bounded axis, and ring operations.  This is the closed
tree the assembler resolves the substitution strings into. -/
inductive Expr
  | zero : Expr
  | param : PVar → Expr
  | dx : Expr → Expr
  | dy : Expr → Expr
  | dz : Expr → Expr
  | leftI : Expr → Expr
  | add : Expr → Expr → Expr
  | mul : Expr → Expr → Expr
  | neg : Expr → Expr

/-- Source line 70: u = -dy(P). -/
def uE : Expr := .neg (.dy (.param .Pp))

/-- Source line 71: v = dx(P). -/
def vE : Expr := .dx (.param .Pp)

/-- Source line 74: zeta = dx(v) - dy(u). -/
def zetaE : Expr := .add (.dx vE) (.neg (.dy uE))

/-- Source line 77: B = dz(P). -/
def BE : Expr := .dz (.param .Pp)

/-- Source line 80: D(a) = u*dx(a) + v*dy(a). -/
def Dop (a : Expr) : Expr := .add (.mul uE (.dx a)) (.mul vE (.dy a))

/-- Source line 81: L(a) = d(a,x=2) + d(a,y=2). -/
def Lop (a : Expr) : Expr := .add (.dx (.dx a)) (.dy (.dy a))

/-- Source line 82: HD(a) = L(L(L(L(a)))). -/
def HDop (a : Expr) : Expr := Lop (Lop (Lop (Lop a)))

/-- Source line 143, right-hand side:
-U*dx(zeta) - beta*v - nu*HD(zeta) - D(zeta). -/
def init_rhs1 : Expr :=
  .add (.neg (.mul (.param .Up) (.dx zetaE)))
    (.add (.neg (.mul (.param .betaP) vE))
      (.add (.neg (.mul (.param .nuP) (HDop zetaE))) (.neg (Dop zetaE))))

/-- Source line 144, right-hand side:
-U*dx(B) + dz(U)*v - kappa*HD(B) - D(B). -/
def init_rhs2 : Expr :=
  .add (.neg (.mul (.param .Up) (.dx BE)))
    (.add (.mul (.dz (.param .Up)) vE)
      (.add (.neg (.mul (.param .kappaP) (HDop BE))) (.neg (Dop BE))))

/-- Source line 146, boundary right-hand side: left(r*zeta). -/
def init_bc1_rhs : Expr := .leftI (.mul (.param .rP) zetaE)

/-- The spectral operations the evaluation of a right-hand side needs
from the external transform library: differentiation along each axis and
interpolation at the left endpoint of the bounded axis. -/
structure SpectralOps (F : Type) where
  dx : F → F
  dy : F → F
  dz : F → F
  leftI : F → F

/-- The operations send the zero field to the zero field, which is all
the zero-forcing argument needs from the external library. -/
def SpectralOps.ZeroPreserving {F : Type} [Zero F] (ops : SpectralOps F) : Prop :=
  ops.dx 0 = 0 ∧ ops.dy 0 = 0 ∧ ops.dz 0 = 0 ∧ ops.leftI 0 = 0

/-- Evaluation of an operator tree over a commutative ring of fields,
with the spectral operations supplied by the external library and the
parameter bindings supplied by the problem. -/
def evalExpr {F : Type} [CommRing F] (ops : SpectralOps F) (env : PVar → F) :
    Expr → F
  | .zero => 0
  | .param p => env p
  | .dx e => ops.dx (evalExpr ops env e)
  | .dy e => ops.dy (evalExpr ops env e)
  | .dz e => ops.dz (evalExpr ops env e)
  | .leftI e => ops.leftI (evalExpr ops env e)
  | .add a b => evalExpr ops env a + evalExpr ops env b
  | .mul a b => evalExpr ops env a * evalExpr ops env b
  | .neg a => - evalExpr ops env a

/-- Modelled from the spec: the per-mode linear solve.  Given the
factorized per-mode matrix and a right-hand-side vector it produces the
solution vector; with a regular matrix this is the unique solution, here
written with the adjugate so that it is total. -/
def lbvpSolveMode {n : ℕ} (A : Matrix (Fin n) (Fin n) ℚ) (b : Fin n → ℚ) :
    Fin n → ℚ :=
  fun i => (A.det)⁻¹ * (A.adjugate.mulVec b i)

lemma lbvpSolveMode_correct {n : ℕ} (A : Matrix (Fin n) (Fin n) ℚ)
    (b : Fin n → ℚ) (h : A.det ≠ 0) : A.mulVec (lbvpSolveMode A b) = b := by
  have h1 : lbvpSolveMode A b = (A.det)⁻¹ • (A.adjugate.mulVec b) := by
    funext i; rfl
  rw [h1, Matrix.mulVec_smul, Matrix.mulVec_mulVec, Matrix.mul_adjugate,
    Matrix.smul_mulVec_assoc, Matrix.one_mulVec, smul_smul,
    inv_mul_cancel₀ h, one_smul]

/-- Claim C7: for the balance LBVP, if the bound pressure field P and
noise field Q are zero then every right-hand side and every boundary
right-hand side of the problem evaluates to the zero field, whatever
values the remaining parameters take and whatever zero-preserving
spectral operations the library supplies; and the per-mode solve of any
wavenumber pair returns the zero vector on a zero right-hand side, so
every unknown of the solve is zero. -/
theorem lbvp_zero_forcing {F : Type} [CommRing F] (ops : SpectralOps F)
    (env : PVar → F) (hP : env .Pp = 0) (hQ : env .Qp = 0)
    (hops : ops.ZeroPreserving) :
    (evalExpr ops env init_rhs1 = 0 ∧ evalExpr ops env init_rhs2 = 0 ∧
     evalExpr ops env init_bc1_rhs = 0 ∧ evalExpr ops env Expr.zero = 0) ∧
    ∀ (n : ℕ) (A : Matrix (Fin n) (Fin n) ℚ), lbvpSolveMode A 0 = 0 := by
  obtain ⟨hdx, hdy, hdz, hleft⟩ := hops
  constructor
  · simp [evalExpr, init_rhs1, init_rhs2, init_bc1_rhs, Dop, Lop, HDop,
      uE, vE, zetaE, BE, hP, hdx, hdy, hdz, hleft]
  · intro n A
    funext i
    simp [lbvpSolveMode, Matrix.mulVec_zero]

/-- Witness for lbvp_zero_forcing over the rationals, with identity
spectral operations and an environment binding P and Q to zero and the
other parameters to the nonzero sample values of the run. -/
def trivOps : SpectralOps ℚ := ⟨id, id, id, id⟩

/-- A sample environment: P and Q are zero, the other parameters carry
nonzero values. -/
def sampleEnv : PVar → ℚ
  | .Pp => 0
  | .Qp => 0
  | .Up => 1
  | .GammaP => 3
  | .betaP => 1/10
  | .rP => 4/25
  | .nuP => 1/1000000
  | .kappaP => 1/1000000
  | .Hp => 1

/-- Witness for lbvp_zero_forcing at the concrete sample instance, with
the per-mode solve instantiated at the 2 x 2 identity matrix. -/
theorem lbvp_zero_forcing_witness :
    (evalExpr trivOps sampleEnv init_rhs1 = 0 ∧
     evalExpr trivOps sampleEnv init_rhs2 = 0 ∧
     evalExpr trivOps sampleEnv init_bc1_rhs = 0 ∧
     evalExpr trivOps sampleEnv Expr.zero = 0) ∧
    lbvpSolveMode (1 : Matrix (Fin 2) (Fin 2) ℚ) 0 = 0 :=
  ⟨(lbvp_zero_forcing trivOps sampleEnv rfl rfl ⟨rfl, rfl, rfl, rfl⟩).1,
   (lbvp_zero_forcing trivOps sampleEnv rfl rfl ⟨rfl, rfl, rfl, rfl⟩).2 2 1⟩

end QGF
